import Mathlib

/-!
Verification development for the audio-transcription pipeline.

Shallow embedding of the repository's chunking / transcription services:
* `AudioChunkingService.js` — chunk splitter, WAV sample encoder, chunk-need classifier
* `GroqTranscriptionService.js` — orchestrator, timestamp reconciler, timestamp formatter
* the API route (`fetchWithRetry`)

JavaScript numbers are modelled as exact rationals (`ℚ`); machine-level
float rounding is outside the scope of the properties treated here, which
are about the exact arithmetic the code performs.  JavaScript objects with
optionally-present fields are modelled as structures of `Option` fields
(`none` = field absent from the object).  Fallible collaborators (the
metadata probe, the network call) are modelled as explicit `Except` inputs.
The JS field name `end` (a Lean keyword) is rendered `stop`.
-/

set_option maxHeartbeats 1000000

/-- A provider segment `{id, start, end, text}` (`end` rendered as `stop`). -/
structure Segment where
  id : ℕ
  start : ℚ
  stop : ℚ
  text : String
  deriving DecidableEq

/-- The JSON body the `/api/transcribe` proxy returns on success:
`{ success: true, text, language, duration, segments? }`. -/
structure ProxyResponse where
  text : String
  language : String
  duration : Option ℚ
  segments : Option (List Segment)
  deriving DecidableEq

/-- A progress notification passed to `onProgress`; fields beyond
`status`/`message` are present only on some notifications. -/
structure ProgressEvent where
  status : String
  message : String
  progress : Option ℚ := none
  currentChunk : Option ℕ := none
  totalChunks : Option ℕ := none
  deriving DecidableEq

/-- A per-chunk summary pushed into `transcriptions` by the orchestrator loop. -/
structure ChunkSummary where
  chunkIndex : ℕ
  startTime : ℚ
  endTime : ℚ
  duration : Option ℚ
  text : String
  deriving DecidableEq

/-- The orchestrator's result object.  Every field the various `return`
statements of `GroqTranscriptionService.js` may set is an `Option`;
`none` means the field is absent from the returned JS object. -/
structure JsResult where
  success : Bool
  text : Option String := none
  segments : Option (List Segment) := none
  language : Option String := none
  duration : Option (Option ℚ) := none
  totalDuration : Option (Option ℚ) := none
  wasChunked : Option Bool := none
  chunks : Option (List ChunkSummary) := none
  error : Option String := none
  partialText : Option String := none
  completedChunks : Option ℕ := none
  totalChunks : Option ℕ := none
  deriving DecidableEq

/-! ## Timestamp reconciliation (`transcribeSingleAudio`, lines 52-60) -/

/-- Lines 53-60 of `GroqTranscriptionService.js`: shift segment timestamps
by the chunk's start offset, applied only when `timeOffset > 0` and the
segment list is non-empty. -/
def adjustSegments (timeOffset : ℚ) (segments : List Segment) : List Segment :=
  if 0 < timeOffset ∧ 0 < segments.length then
    segments.map (fun seg => { seg with start := seg.start + timeOffset, stop := seg.stop + timeOffset })
  else
    segments

/-! ## Chunk-need classifier (`checkIfNeedsChunking`, lines 178-217) -/

/-- Which limit a `reason` string cites.  The source builds a human-readable
message interpolating the rounded size or duration; the claims only depend
on which limit is cited, so the message is abstracted to this tag. -/
inductive ChunkReason where
  | size
  | duration
  deriving DecidableEq

/-- Return value of `checkIfNeedsChunking`. -/
structure ChunkCheck where
  needsChunking : Bool
  reason : Option ChunkReason
  duration : Option ℚ
  estimatedChunks : ℤ
  deriving DecidableEq

/-- `CHUNK_DURATION_SECONDS = 300` from `AudioChunkingService.js`. -/
def CHUNK_DURATION_SECONDS : ℕ := 300

/-- `checkIfNeedsChunking(file, maxSizeMB = 25, maxDurationSeconds = 300)`.
The duration probe (`getAudioDuration`) is an external capability passed in
as an `Except`: `.ok d` when metadata loads, `.error ()` when it fails. -/
def checkIfNeedsChunking (fileSizeBytes : ℕ) (probe : Except Unit ℚ)
    (maxSizeMB maxDurationSeconds : ℚ) : ChunkCheck :=
  let fileSizeMB : ℚ := (fileSizeBytes : ℚ) / (1024 * 1024)
  match probe with
  | Except.ok duration =>
    if maxSizeMB < fileSizeMB then
      { needsChunking := true, reason := some ChunkReason.size, duration := some duration,
        estimatedChunks := ⌈duration / (CHUNK_DURATION_SECONDS : ℚ)⌉ }
    else if maxDurationSeconds < duration then
      { needsChunking := true, reason := some ChunkReason.duration, duration := some duration,
        estimatedChunks := ⌈duration / (CHUNK_DURATION_SECONDS : ℚ)⌉ }
    else
      { needsChunking := false, reason := none, duration := some duration, estimatedChunks := 1 }
  | Except.error _ =>
    { needsChunking := decide (maxSizeMB < fileSizeMB),
      reason := if maxSizeMB < fileSizeMB then some ChunkReason.size else none,
      duration := none,
      estimatedChunks := if maxSizeMB < fileSizeMB then ⌈fileSizeMB / 10⌉ else 1 }

/-! ## WAV sample encoding (`audioBufferToWav`, lines 123-133) -/

/-- Rounding toward zero, the conversion `DataView.setInt16` applies to a
non-integral number (ECMAScript ToIntegerOrInfinity). -/
def truncQ (x : ℚ) : ℤ :=
  if 0 ≤ x then ⌊x⌋ else ⌈x⌉

/-- Line 129: `Math.max(-1, Math.min(1, sample))`. -/
def clampSample (sample : ℚ) : ℚ :=
  max (-1) (min 1 sample)

/-- Wrapping of an integer into the signed 16-bit range, as `setInt16`
stores the low 16 bits of the converted integer. -/
def wrapInt16 (v : ℤ) : ℤ :=
  (v + 32768) % 65536 - 32768

/-- Lines 127-131: the 16-bit integer actually stored for one sample:
clamp to `[-1, 1]`, scale by `0x7FFF = 32767`, convert with `setInt16`
(truncation toward zero, then low 16 bits). -/
def wavIntSample (sample : ℚ) : ℤ :=
  wrapInt16 (truncQ (clampSample sample * 32767))

/-- Modelled from the spec: the Audio Decoder (spec 4.1 `decode`) is the
browser's `decodeAudioData`, absent from `src/`; the spec round-trip bound
(spec 8, error at most `1/32767`) fixes its 16-bit-to-float scaling as
division by `0x7FFF = 32767`. -/
def decodeSample (v : ℤ) : ℚ :=
  (v : ℚ) / 32767

/-! ## Timestamp formatting (`formatTimestamp`, lines 197-206) -/

/-- JavaScript's `%` on numbers (fmod): `x - y * trunc(x / y)`. -/
def jsMod (x y : ℚ) : ℚ :=
  x - y * (truncQ (x / y) : ℚ)

/-- `Math.floor(seconds / 3600)`. -/
def hoursPart (seconds : ℚ) : ℤ :=
  ⌊seconds / 3600⌋

/-- `Math.floor((seconds % 3600) / 60)`. -/
def minutesPart (seconds : ℚ) : ℤ :=
  ⌊jsMod seconds 3600 / 60⌋

/-- `Math.floor(seconds % 60)`. -/
def secondsPart (seconds : ℚ) : ℤ :=
  ⌊jsMod seconds 60⌋

/-- `n.toString().padStart(2, '0')` for the integer field values. -/
def pad2 (n : ℤ) : String :=
  let s := toString n
  if s.length < 2 then "0" ++ s else s

/-- `formatTimestamp(seconds)`: `HH:MM:SS` when the hour field is positive,
else `MM:SS`, each field zero-padded with `padStart(2, '0')`. -/
def formatTimestamp (seconds : ℚ) : String :=
  if 0 < hoursPart seconds then
    pad2 (hoursPart seconds) ++ ":" ++ pad2 (minutesPart seconds) ++ ":" ++ pad2 (secondsPart seconds)
  else
    pad2 (minutesPart seconds) ++ ":" ++ pad2 (secondsPart seconds)

/-! ## Retry logic (`fetchWithRetry` in the API route, lines 275-294) -/

/-- The response object of a resolved `fetch` (any HTTP status). -/
structure HttpResponse where
  ok : Bool
  status : ℕ
  deriving DecidableEq

/-- A rejected `fetch`: `error.cause?.code` and `error.message`. -/
structure FetchError where
  causeCode : Option String
  message : String
  deriving DecidableEq

/-- Outcome of one `fetch` attempt: resolves with a response or rejects. -/
inductive FetchOutcome where
  | response (r : HttpResponse)
  | failure (e : FetchError)
  deriving DecidableEq

/-- What `fetchWithRetry` does overall: returns a response, throws the
last error, or falls off the loop (unreachable when `retries ≥ 1`). -/
inductive RetryOutcome where
  | response (r : HttpResponse)
  | thrown (e : FetchError)
  | fellThrough
  deriving DecidableEq

/-- `s.includes(pat)` for a non-empty pattern. -/
def strContains (s pat : String) : Bool :=
  2 ≤ (s.splitOn pat).length

/-- Lines 282-284: an error is retryable when its cause code is
`ETIMEDOUT` or `ECONNRESET`, or its message includes `fetch failed`. -/
def isRetryable (e : FetchError) : Bool :=
  e.causeCode == some "ETIMEDOUT" || e.causeCode == some "ECONNRESET" ||
    strContains e.message "fetch failed"

/-- The `for (attempt = 1; attempt <= retries; attempt++)` loop, iterating
over the list of remaining attempt numbers.  Returns the overall outcome,
the list of delays slept (line 291: `RETRY_DELAY_MS * attempt` with
`RETRY_DELAY_MS = 1000`), and the list of attempt numbers at which `fetch`
was called. -/
def fetchWithRetryGo (outcome : ℕ → FetchOutcome) (retries : ℕ) :
    (attempts : List ℕ) → RetryOutcome × List ℕ × List ℕ
  | [] => (RetryOutcome.fellThrough, [], [])
  | attempt :: restAttempts =>
    match outcome attempt with
    | FetchOutcome.response r => (RetryOutcome.response r, [], [attempt])
    | FetchOutcome.failure e =>
      if attempt == retries || !(isRetryable e) then
        (RetryOutcome.thrown e, [], [attempt])
      else
        let rest := fetchWithRetryGo outcome retries restAttempts
        (rest.1, 1000 * attempt :: rest.2.1, attempt :: rest.2.2)

/-- `fetchWithRetry(url, options, retries = MAX_RETRIES)` with
`MAX_RETRIES = 3`; the `fetch` attempts are the collaborator input
`outcome` (attempt number ↦ what that `fetch` did).  The loop runs over
attempt numbers `1, …, retries`. -/
def fetchWithRetry (outcome : ℕ → FetchOutcome) (retries : ℕ := 3) :
    RetryOutcome × List ℕ × List ℕ :=
  fetchWithRetryGo outcome retries (List.range' 1 retries)

/-! ## Chunk splitting (`splitAudioIntoChunks`, lines 15-86) -/

/-- The payload of a chunk: either the original file passed through
unmodified (the `duration <= chunkDurationSeconds` early return, lines
29-37) or a WAV re-encoding of a sample window of the decoded buffer. -/
inductive ChunkBlob (A : Type) where
  | original (file : A)
  | wavChunk (startSample endSample : ℕ)
  deriving DecidableEq

/-- A chunk descriptor as returned by `splitAudioIntoChunks`; the early
return omits the `duration` field, the loop sets it. -/
structure AudioChunk (A : Type) where
  blob : ChunkBlob A
  startTime : ℚ
  endTime : ℚ
  index : ℕ
  duration : Option ℚ
  deriving DecidableEq

/-- One record produced by the splitting loop (lines 46-81), with its
sample window, its times (`currentSample / sampleRate` and
`(currentSample + chunkSamples) / sampleRate`) and its index. -/
structure LoopChunk where
  startSample : ℕ
  endSample : ℕ
  startTime : ℚ
  endTime : ℚ
  index : ℕ
  deriving DecidableEq

/-- Line 76: `duration: endTime - startTime`. -/
def LoopChunk.durationQ (c : LoopChunk) : ℚ :=
  c.endTime - c.startTime

/-- Line 40 of `AudioChunkingService.js`:
`samplesPerChunk = chunkDurationSeconds * sampleRate` — a plain product,
with no rounding applied. -/
def samplesPerChunk (chunkDurationSeconds : ℚ) (sampleRate : ℕ) : ℚ :=
  chunkDurationSeconds * (sampleRate : ℚ)

/-- The `while (currentSample < totalSamples)` loop (lines 46-81), for an
integral `samplesPerChunk` (written `spc`).  Each iteration takes
`chunkSamples = min(samplesPerChunk, totalSamples - currentSample)` and
advances `currentSample` by it.  `fuel` bounds the iterations; since each
iteration advances by at least one sample when `0 < spc`, any
`fuel ≥ totalSamples - currentSample` is enough. -/
def splitLoopAux (spc sampleRate : ℕ) :
    (fuel totalSamples currentSample chunkIndex : ℕ) → List LoopChunk
  | 0, _, _, _ => []
  | fuel + 1, totalSamples, currentSample, chunkIndex =>
    if currentSample < totalSamples then
      let chunkSamples := min spc (totalSamples - currentSample)
      { startSample := currentSample, endSample := currentSample + chunkSamples,
        startTime := (currentSample : ℚ) / (sampleRate : ℚ),
        endTime := ((currentSample + chunkSamples : ℕ) : ℚ) / (sampleRate : ℚ),
        index := chunkIndex }
        :: splitLoopAux spc sampleRate fuel totalSamples (currentSample + chunkSamples) (chunkIndex + 1)
    else []

/-- `splitAudioIntoChunks(file, chunkDurationSeconds = 300)`.  The decoded
buffer is given by its `duration`, `length` (total samples) and
`sampleRate`; `chunkDurationSeconds` is restricted to the integers (every
call in the repository uses the integer default 300), making
`samplesPerChunk` the natural number `chunkDurationSeconds * sampleRate`. -/
def splitAudioIntoChunks (A : Type) (file : A) (decodedDuration : ℚ)
    (totalSamples sampleRate chunkDurationSeconds : ℕ) : List (AudioChunk A) :=
  if decodedDuration ≤ (chunkDurationSeconds : ℚ) then
    [{ blob := ChunkBlob.original file, startTime := 0, endTime := decodedDuration,
       index := 0, duration := none }]
  else
    (splitLoopAux (chunkDurationSeconds * sampleRate) sampleRate totalSamples totalSamples 0 0).map
      (fun c => { blob := ChunkBlob.wavChunk c.startSample c.endSample,
                  startTime := c.startTime, endTime := c.endTime,
                  index := c.index, duration := some c.durationQ })

/-! ## Orchestration (`transcribeSingleAudio` / `transcribeAudio`) -/

/-- Event emitted at line 23. -/
def uploadingEv : ProgressEvent :=
  { status := "uploading", message := "Uploading audio file..." }

/-- Event emitted at line 37. -/
def transcribingEv : ProgressEvent :=
  { status := "transcribing", message := "Transcribing audio..." }

/-- Event emitted at line 50. -/
def completedEv : ProgressEvent :=
  { status := "completed", message := "Transcription complete!" }

/-- Events of one failing `transcribeSingleAudio` call. -/
def singleFailEvents (msg : String) : List ProgressEvent :=
  [uploadingEv, transcribingEv, { status := "error", message := msg }]

/-- Events of one successful `transcribeSingleAudio` call. -/
def singleOkEvents : List ProgressEvent :=
  [uploadingEv, transcribingEv, completedEv]

/-- `transcribeSingleAudio(file, options)` (lines 19-77).  The network
round-trip through `/api/transcribe` is the collaborator input `outcome`:
`.ok r` when the fetch resolved with an ok response body `r`, `.error msg`
when the fetch rejected or the response was not ok (line 47 throws, and
the `catch` turns either into `{success: false, error}`).  Returns the
result object and the emitted progress events. -/
def transcribeSingleAudio (outcome : Except String ProxyResponse) (timeOffset : ℚ) :
    JsResult × List ProgressEvent :=
  match outcome with
  | Except.error msg =>
    ({ success := false, error := some msg }, singleFailEvents msg)
  | Except.ok r =>
    ({ success := true, text := some r.text, language := some r.language,
       duration := some r.duration,
       segments := some (adjustSegments timeOffset (r.segments.getD [])) },
     singleOkEvents)

/-- Line 164: `totalText += (totalText ? " " : "") + result.text`. -/
def joinText (totalText t : String) : String :=
  totalText ++ (if totalText = "" then "" else " ") ++ t

/-- Folding `joinText` over a list of chunk texts. -/
def joinTexts (totalText : String) (ts : List String) : String :=
  ts.foldl joinText totalText

/-- The success result of the chunked path (lines 173-181). -/
def successResult (text : String) (segments : List Segment) (chunks : List ChunkSummary)
    (language : String) (totalDuration : Option ℚ) : JsResult :=
  { success := true, text := some text, segments := some segments, chunks := some chunks,
    language := some language, totalDuration := some totalDuration, wasChunked := some true }

/-- The partial-failure result (lines 141-148). -/
def failureResult (error partialText : String) (segments : List Segment)
    (completedChunks totalChunks : ℕ) : JsResult :=
  { success := false, error := some error, partialText := some partialText,
    segments := some segments, completedChunks := some completedChunks,
    totalChunks := some totalChunks }

/-- Event emitted at lines 124-130 before transcribing chunk `i` (0-based)
of `n`: `progress: (i / chunks.length) * 100`, `currentChunk: i + 1`. -/
def chunkProgressEv (i n : ℕ) : ProgressEvent :=
  { status := "transcribing",
    message := "Transcribing chunk " ++ toString (i + 1) ++ " of " ++ toString n ++ "...",
    progress := some (((i : ℚ) / (n : ℚ)) * 100),
    currentChunk := some (i + 1), totalChunks := some n }

/-- Event emitted at lines 167-171 after the loop completes. -/
def completedAllEv : ProgressEvent :=
  { status := "completed", message := "All chunks transcribed!", progress := some 100 }

/-- Event emitted at line 93. -/
def analyzingEv : ProgressEvent :=
  { status := "analyzing", message := "Analyzing audio file..." }

/-- Event emitted at lines 103-106. -/
def chunkingEv (estimatedChunks : ℤ) : ProgressEvent :=
  { status := "chunking",
    message := "Splitting audio into ~" ++ toString estimatedChunks ++ " chunks..." }

/-- Event emitted at lines 110-114. -/
def startTranscribingEv (n : ℕ) : ProgressEvent :=
  { status := "transcribing", message := "Transcribing " ++ toString n ++ " chunks...",
    totalChunks := some n }

/-- The `for (let i = 0; ...)` loop of `transcribeAudio` (lines 121-165),
structural on the remaining chunks; `i` is the index of the first of
them, `n = chunks.length`.  `oracle j` is what the network round-trip for
chunk `j` does.  On a failed chunk the loop returns the partial-failure
result immediately; on success it accumulates the per-chunk summary, the
reconciled segments (produced inside `transcribeSingleAudio` via the
`timeOffset = chunk.startTime` option) and the joined text.  Returns the
result, the emitted events, and the list of calls made — each call is the
chunk index paired with the uploaded payload (`chunk.blob`). -/
def transcribeChunksLoop (A : Type) (oracle : ℕ → Except String ProxyResponse)
    (n : ℕ) (language : String) (checkDuration : Option ℚ) :
    (rest : List (AudioChunk A)) → (i : ℕ) → (totalText : String) →
    (allSegments : List Segment) → (transcriptions : List ChunkSummary) →
    JsResult × List ProgressEvent × List (ℕ × ChunkBlob A)
  | [], _, totalText, allSegments, transcriptions =>
    (successResult totalText allSegments transcriptions language checkDuration,
     [completedAllEv], [])
  | chunk :: rest, i, totalText, allSegments, transcriptions =>
    match oracle i with
    | Except.error msg =>
      (failureResult ("Failed to transcribe chunk " ++ toString (i + 1) ++ ": " ++ msg)
         totalText allSegments i n,
       chunkProgressEv i n :: singleFailEvents msg,
       [(i, chunk.blob)])
    | Except.ok r =>
      let segments := adjustSegments chunk.startTime (r.segments.getD [])
      let summary : ChunkSummary :=
        { chunkIndex := i, startTime := chunk.startTime, endTime := chunk.endTime,
          duration := chunk.duration, text := r.text }
      let out := transcribeChunksLoop A oracle n language checkDuration rest (i + 1)
        (joinText totalText r.text) (allSegments ++ segments) (transcriptions ++ [summary])
      (out.1,
       chunkProgressEv i n :: (singleOkEvents ++ out.2.1),
       (i, chunk.blob) :: out.2.2)

/-- An audio file as the orchestrator observes it: its payload, byte size,
the (fallible) metadata-probe duration, and the decoded buffer data the
splitter reads. -/
structure AudioFile (A : Type) where
  payload : A
  sizeBytes : ℕ
  probedDuration : Except Unit ℚ
  decodedDuration : ℚ
  totalSamples : ℕ
  sampleRate : ℕ

/-- The chunk list `transcribeAudio` obtains at line 108
(`splitAudioIntoChunks(file)`, i.e. with the default 300 s chunks). -/
def plannedChunks (A : Type) (file : AudioFile A) : List (AudioChunk A) :=
  splitAudioIntoChunks A file.payload file.decodedDuration file.totalSamples file.sampleRate
    CHUNK_DURATION_SECONDS

/-- `transcribeAudio(file, options)` (lines 88-190): classify with
`checkIfNeedsChunking` (defaults 25 MB / 300 s); if no chunking is needed,
one direct `transcribeSingleAudio` call (the `oracle 0` outcome, offset 0)
whose result is returned unchanged; otherwise split and run the chunk
loop.  Returns the result, the events, and the calls made (index and
uploaded payload). -/
def transcribeAudio (A : Type) (file : AudioFile A)
    (oracle : ℕ → Except String ProxyResponse) (language : String) :
    JsResult × List ProgressEvent × List (ℕ × ChunkBlob A) :=
  let chunkCheck := checkIfNeedsChunking file.sizeBytes file.probedDuration 25 300
  if chunkCheck.needsChunking then
    let chunks := plannedChunks A file
    let out := transcribeChunksLoop A oracle chunks.length language chunkCheck.duration
      chunks 0 "" [] []
    (out.1,
     analyzingEv :: chunkingEv chunkCheck.estimatedChunks ::
       startTranscribingEv chunks.length :: out.2.1,
     out.2.2)
  else
    let single := transcribeSingleAudio (oracle 0) 0
    (single.1, analyzingEv :: single.2, [(0, ChunkBlob.original file.payload)])

/-! ## C4 — timestamp reconciliation -/

/-- C4: with a positive offset, reconciliation maps each segment to the
same segment with `start`/`end` increased by exactly the offset (hence
same length and order, other fields unchanged); with offset `0` it is the
identity.  (The embedding is a pure function, so the input list is never
mutated.) -/
theorem C4_reconcile_shift (offsetSeconds : ℚ) (segments : List Segment) :
    (0 < offsetSeconds →
      adjustSegments offsetSeconds segments =
        segments.map (fun seg =>
          { seg with start := seg.start + offsetSeconds, stop := seg.stop + offsetSeconds })) ∧
    (adjustSegments offsetSeconds segments).length = segments.length ∧
    adjustSegments 0 segments = segments := by
  refine ⟨?_, ?_, ?_⟩
  · intro hpos
    cases segments with
    | nil => simp [adjustSegments]
    | cons s rest => simp [adjustSegments, hpos]
  · unfold adjustSegments
    split <;> simp
  · simp [adjustSegments]

theorem C4_reconcile_shift_witness :
    (0 : ℚ) < 5 ∧
    adjustSegments 5 [{ id := 1, start := 2, stop := 3, text := "a" }] =
      ([{ id := 1, start := 2, stop := 3, text := "a" }] : List Segment).map (fun seg =>
        { seg with start := seg.start + 5, stop := seg.stop + 5 }) ∧
    adjustSegments 0 [{ id := 1, start := 2, stop := 3, text := "a" }] =
      [{ id := 1, start := 2, stop := 3, text := "a" }] :=
  ⟨by norm_num,
   (C4_reconcile_shift 5 [{ id := 1, start := 2, stop := 3, text := "a" }]).1 (by norm_num),
   (C4_reconcile_shift 0 [{ id := 1, start := 2, stop := 3, text := "a" }]).2.2⟩

/-! ## C5 — chunk-need classifier -/

/-- C5: the classifier decides size first, then duration; a failed probe
degrades to a size-only decision with `duration = null` and a size-based
chunk estimate, never an error.  With a known duration, needed chunking
estimates `ceil(duration / 300)`. -/
theorem C5_classifier_cases (fileSizeBytes : ℕ) (probe : Except Unit ℚ)
    (maxSizeMB maxDurationSeconds duration : ℚ) :
    (probe = Except.ok duration → maxSizeMB < (fileSizeBytes : ℚ) / (1024 * 1024) →
      checkIfNeedsChunking fileSizeBytes probe maxSizeMB maxDurationSeconds =
        { needsChunking := true, reason := some ChunkReason.size, duration := some duration,
          estimatedChunks := ⌈duration / (CHUNK_DURATION_SECONDS : ℚ)⌉ }) ∧
    (probe = Except.ok duration → ¬(maxSizeMB < (fileSizeBytes : ℚ) / (1024 * 1024)) →
      maxDurationSeconds < duration →
      checkIfNeedsChunking fileSizeBytes probe maxSizeMB maxDurationSeconds =
        { needsChunking := true, reason := some ChunkReason.duration, duration := some duration,
          estimatedChunks := ⌈duration / (CHUNK_DURATION_SECONDS : ℚ)⌉ }) ∧
    (probe = Except.ok duration → ¬(maxSizeMB < (fileSizeBytes : ℚ) / (1024 * 1024)) →
      ¬(maxDurationSeconds < duration) →
      checkIfNeedsChunking fileSizeBytes probe maxSizeMB maxDurationSeconds =
        { needsChunking := false, reason := none, duration := some duration,
          estimatedChunks := 1 }) ∧
    (probe = Except.error () →
      (maxSizeMB < (fileSizeBytes : ℚ) / (1024 * 1024) →
        checkIfNeedsChunking fileSizeBytes probe maxSizeMB maxDurationSeconds =
          { needsChunking := true, reason := some ChunkReason.size, duration := none,
            estimatedChunks := ⌈((fileSizeBytes : ℚ) / (1024 * 1024)) / 10⌉ }) ∧
      (¬(maxSizeMB < (fileSizeBytes : ℚ) / (1024 * 1024)) →
        checkIfNeedsChunking fileSizeBytes probe maxSizeMB maxDurationSeconds =
          { needsChunking := false, reason := none, duration := none,
            estimatedChunks := 1 })) := by
  refine ⟨?_, ?_, ?_, ?_⟩
  · intro hp hs; subst hp; simp [checkIfNeedsChunking, hs]
  · intro hp hs hd; subst hp; simp [checkIfNeedsChunking, hs, hd]
  · intro hp hs hd; subst hp; simp [checkIfNeedsChunking, hs, hd]
  · intro hp
    subst hp
    constructor
    · intro hs; simp [checkIfNeedsChunking, hs]
    · intro hs; simp [checkIfNeedsChunking, hs]

theorem C5_classifier_cases_witness :
    ((27262976 : ℕ) : ℚ) / (1024 * 1024) = 26 ∧ (25 : ℚ) < 26 ∧
    checkIfNeedsChunking 27262976 (Except.ok 100) 25 300 =
      { needsChunking := true, reason := some ChunkReason.size, duration := some 100,
        estimatedChunks := ⌈(100 : ℚ) / (CHUNK_DURATION_SECONDS : ℚ)⌉ } ∧
    checkIfNeedsChunking 27262976 (Except.error ()) 25 300 =
      { needsChunking := true, reason := some ChunkReason.size, duration := none,
        estimatedChunks := ⌈(((27262976 : ℕ) : ℚ) / (1024 * 1024)) / 10⌉ } :=
  ⟨by norm_num, by norm_num,
   (C5_classifier_cases 27262976 (Except.ok 100) 25 300 100).1 rfl (by norm_num),
   ((C5_classifier_cases 27262976 (Except.error ()) 25 300 100).2.2.2 rfl).1 (by norm_num)⟩

/-! ## C3 — retry logic -/

/-- C3: at most 3 attempts are made; any resolved response (any HTTP
status, ok or not) is returned with no retry; a non-retryable rejection
propagates at once; a retryable rejection after attempt `n` is followed by
a `1000 * n` ms delay and one more attempt; after the third attempt the
loop never continues — the third rejection propagates as the last error. -/
theorem C3_retry_behaviour (outcome : ℕ → FetchOutcome) :
    ((fetchWithRetry outcome 3).2.2).length ≤ 3 ∧
    (∀ r, outcome 1 = FetchOutcome.response r →
      fetchWithRetry outcome 3 = (RetryOutcome.response r, [], [1])) ∧
    (∀ e, outcome 1 = FetchOutcome.failure e → isRetryable e = false →
      fetchWithRetry outcome 3 = (RetryOutcome.thrown e, [], [1])) ∧
    (∀ e1 r, outcome 1 = FetchOutcome.failure e1 → isRetryable e1 = true →
      outcome 2 = FetchOutcome.response r →
      fetchWithRetry outcome 3 = (RetryOutcome.response r, [1000 * 1], [1, 2])) ∧
    (∀ e1 e2, outcome 1 = FetchOutcome.failure e1 → isRetryable e1 = true →
      outcome 2 = FetchOutcome.failure e2 → isRetryable e2 = false →
      fetchWithRetry outcome 3 = (RetryOutcome.thrown e2, [1000 * 1], [1, 2])) ∧
    (∀ e1 e2 r, outcome 1 = FetchOutcome.failure e1 → isRetryable e1 = true →
      outcome 2 = FetchOutcome.failure e2 → isRetryable e2 = true →
      outcome 3 = FetchOutcome.response r →
      fetchWithRetry outcome 3 = (RetryOutcome.response r, [1000 * 1, 1000 * 2], [1, 2, 3])) ∧
    (∀ e1 e2 e3, outcome 1 = FetchOutcome.failure e1 → isRetryable e1 = true →
      outcome 2 = FetchOutcome.failure e2 → isRetryable e2 = true →
      outcome 3 = FetchOutcome.failure e3 →
      fetchWithRetry outcome 3 = (RetryOutcome.thrown e3, [1000 * 1, 1000 * 2], [1, 2, 3])) := by
  have hgo : fetchWithRetry outcome 3 = fetchWithRetryGo outcome 3 [1, 2, 3] := rfl
  refine ⟨?_, ?_, ?_, ?_, ?_, ?_, ?_⟩
  · rw [hgo]
    cases h1 : outcome 1 with
    | response r1 => simp [fetchWithRetryGo, h1]
    | failure e1 =>
      cases hr1 : isRetryable e1 with
      | false => simp [fetchWithRetryGo, h1, hr1]
      | true =>
        cases h2 : outcome 2 with
        | response r2 => simp [fetchWithRetryGo, h1, hr1, h2]
        | failure e2 =>
          cases hr2 : isRetryable e2 with
          | false => simp [fetchWithRetryGo, h1, hr1, h2, hr2]
          | true =>
            cases h3 : outcome 3 with
            | response r3 => simp [fetchWithRetryGo, h1, hr1, h2, hr2, h3]
            | failure e3 => simp [fetchWithRetryGo, h1, hr1, h2, hr2, h3]
  · intro r h1; rw [hgo]; simp [fetchWithRetryGo, h1]
  · intro e h1 hr1; rw [hgo]; simp [fetchWithRetryGo, h1, hr1]
  · intro e1 r h1 hr1 h2; rw [hgo]; simp [fetchWithRetryGo, h1, hr1, h2]
  · intro e1 e2 h1 hr1 h2 hr2; rw [hgo]; simp [fetchWithRetryGo, h1, hr1, h2, hr2]
  · intro e1 e2 r h1 hr1 h2 hr2 h3; rw [hgo]; simp [fetchWithRetryGo, h1, hr1, h2, hr2, h3]
  · intro e1 e2 e3 h1 hr1 h2 hr2 h3; rw [hgo]; simp [fetchWithRetryGo, h1, hr1, h2, hr2, h3]

theorem C3_retry_behaviour_witness :
    isRetryable { causeCode := some "ETIMEDOUT", message := "timed out" } = true ∧
    fetchWithRetry (fun _ => FetchOutcome.failure
        { causeCode := some "ETIMEDOUT", message := "timed out" }) 3 =
      (RetryOutcome.thrown { causeCode := some "ETIMEDOUT", message := "timed out" },
       [1000 * 1, 1000 * 2], [1, 2, 3]) :=
  ⟨by decide,
   (C3_retry_behaviour (fun _ => FetchOutcome.failure
       { causeCode := some "ETIMEDOUT", message := "timed out" })).2.2.2.2.2.2
     { causeCode := some "ETIMEDOUT", message := "timed out" }
     { causeCode := some "ETIMEDOUT", message := "timed out" }
     { causeCode := some "ETIMEDOUT", message := "timed out" }
     rfl (by decide) rfl (by decide) rfl⟩

/-! ## C8 — WAV sample conversion -/

lemma wrapInt16_eq_self (v : ℤ) (h1 : -32768 ≤ v) (h2 : v < 32768) : wrapInt16 v = v := by
  unfold wrapInt16
  rw [Int.emod_eq_of_lt (by omega) (by omega)]
  omega

lemma clampSample_mem (s : ℚ) : -1 ≤ clampSample s ∧ clampSample s ≤ 1 := by
  unfold clampSample
  constructor
  · exact le_max_left _ _
  · exact max_le (by norm_num) (min_le_left _ _)

lemma truncQ_scaled_bounds (s : ℚ) :
    -32767 ≤ truncQ (clampSample s * 32767) ∧ truncQ (clampSample s * 32767) ≤ 32767 := by
  obtain ⟨hc1, hc2⟩ := clampSample_mem s
  have hx1 : (-32767 : ℚ) ≤ clampSample s * 32767 := by nlinarith
  have hx2 : clampSample s * 32767 ≤ 32767 := by nlinarith
  unfold truncQ
  split
  · constructor
    · have : (0 : ℤ) ≤ ⌊clampSample s * 32767⌋ := Int.floor_nonneg.mpr (by assumption)
      omega
    · have h := le_trans (Int.floor_le (clampSample s * 32767)) hx2
      exact_mod_cast h
  · constructor
    · have h := le_trans hx1 (Int.le_ceil (clampSample s * 32767))
      exact_mod_cast h
    · have hneg : clampSample s * 32767 ≤ 0 := by
        have : ¬ (0 : ℚ) ≤ clampSample s * 32767 := by assumption
        linarith [not_le.mp this]
      have : ⌈clampSample s * 32767⌉ ≤ (0 : ℤ) := Int.ceil_le.mpr (by exact_mod_cast hneg)
      omega

/-- C8: each sample is clamped to `[-1, 1]`, scaled by `0x7FFF`, and
converted by truncation toward zero (floor for non-negative values, ceil
for non-positive ones — never round-half-to-even); the resulting integer
fits the signed 16-bit range with no wrap, saturates at `±32767` for
out-of-range samples, and decoding it (spec-modelled as division by
`32767`) recovers any in-range sample to within `1/32767`. -/
theorem C8_wav_encoding (s : ℚ) :
    wavIntSample s = truncQ (clampSample s * 32767) ∧
    -32767 ≤ wavIntSample s ∧
    wavIntSample s ≤ 32767 ∧
    (1 ≤ s → wavIntSample s = 32767) ∧
    (s ≤ -1 → wavIntSample s = -32767) ∧
    (0 ≤ s → wavIntSample s = ⌊clampSample s * 32767⌋) ∧
    (s ≤ 0 → wavIntSample s = ⌈clampSample s * 32767⌉) ∧
    (-1 ≤ s → s ≤ 1 → |s - decodeSample (wavIntSample s)| ≤ 1 / 32767) := by
  obtain ⟨hb1, hb2⟩ := truncQ_scaled_bounds s
  have hmain : wavIntSample s = truncQ (clampSample s * 32767) := by
    unfold wavIntSample
    exact wrapInt16_eq_self _ (by omega) (by omega)
  have hclamp_hi : 1 ≤ s → clampSample s = 1 := by
    intro h
    unfold clampSample
    rw [min_eq_left h, max_eq_right (by norm_num)]
  have hclamp_lo : s ≤ -1 → clampSample s = -1 := by
    intro h
    unfold clampSample
    rw [min_eq_right (by linarith), max_eq_left h]
  refine ⟨hmain, by omega, by omega, ?_, ?_, ?_, ?_, ?_⟩
  · intro h
    rw [hmain, hclamp_hi h]
    norm_num [truncQ]
  · intro h
    rw [hmain, hclamp_lo h]
    norm_num [truncQ]
    have hcast : ((-32767 : ℤ) : ℚ) = -32767 := by norm_num
    rw [← hcast, Int.ceil_intCast]
  · intro h
    rw [hmain]
    unfold truncQ
    rw [if_pos]
    have h0 : 0 ≤ clampSample s := by
      unfold clampSample
      by_cases hs1 : s ≤ 1
      · rw [min_eq_right hs1]; exact le_max_of_le_right h
      · rw [min_eq_left (by linarith)]; exact le_max_of_le_right (by norm_num)
    nlinarith
  · intro h
    rw [hmain]
    by_cases h0 : 0 ≤ clampSample s * 32767
    · have hc0 : clampSample s ≤ 0 := by
        unfold clampSample
        exact max_le (by norm_num) (le_trans (min_le_right 1 s) h)
      have hx0 : clampSample s * 32767 = 0 := by nlinarith
      rw [truncQ, if_pos h0, hx0]
      norm_num
    · rw [truncQ, if_neg h0]
  · intro h1 h2
    have hcl : clampSample s = s := by
      unfold clampSample
      rw [min_eq_right h2, max_eq_right h1]
    rw [hmain, hcl]
    set t : ℤ := truncQ (s * 32767) with ht
    have hkey : |s * 32767 - (t : ℚ)| ≤ 1 := by
      rw [ht]
      unfold truncQ
      split
      · rw [abs_le]
        constructor
        · linarith [Int.floor_le (s * 32767)]
        · linarith [Int.lt_floor_add_one (s * 32767)]
      · rw [abs_le]
        constructor
        · linarith [Int.ceil_lt_add_one (s * 32767)]
        · linarith [Int.le_ceil (s * 32767)]
    have heq : s - decodeSample t = (s * 32767 - (t : ℚ)) / 32767 := by
      unfold decodeSample
      ring
    rw [heq, abs_div, abs_of_pos (by norm_num : (0 : ℚ) < 32767)]
    exact div_le_div_of_nonneg_right hkey (by norm_num) |>.trans (le_refl _)

theorem C8_wav_encoding_witness :
    (-1 : ℚ) ≤ 1 / 2 ∧ (1 / 2 : ℚ) ≤ 1 ∧
    |(1 / 2 : ℚ) - decodeSample (wavIntSample (1 / 2))| ≤ 1 / 32767 :=
  ⟨by norm_num, by norm_num,
   (C8_wav_encoding (1 / 2)).2.2.2.2.2.2.2 (by norm_num) (by norm_num)⟩

/-! ## C9 — timestamp formatting -/

lemma pad2_nat_lt_100 : ∀ m : ℕ, m < 100 → (pad2 ((m : ℤ))).length = 2 := by decide

lemma pad2_length_two (n : ℤ) (h0 : 0 ≤ n) (h : n < 100) : (pad2 n).length = 2 := by
  have hn : n = ((n.toNat : ℕ) : ℤ) := by omega
  rw [hn]
  exact pad2_nat_lt_100 n.toNat (by omega)

lemma jsMod_bounds (x y : ℚ) (hx : 0 ≤ x) (hy : 0 < y) : 0 ≤ jsMod x y ∧ jsMod x y < y := by
  have ht : truncQ (x / y) = ⌊x / y⌋ := if_pos (div_nonneg hx hy.le)
  have hxy : y * (x / y) = x := by field_simp
  unfold jsMod
  rw [ht]
  constructor
  · have h1 : (↑⌊x / y⌋ : ℚ) ≤ x / y := Int.floor_le (x / y)
    nlinarith
  · have h2 : x / y < ↑⌊x / y⌋ + 1 := Int.lt_floor_add_one (x / y)
    nlinarith

lemma minutesPart_bounds (s : ℚ) (hs : 0 ≤ s) : 0 ≤ minutesPart s ∧ minutesPart s < 60 := by
  obtain ⟨h1, h2⟩ := jsMod_bounds s 3600 hs (by norm_num)
  unfold minutesPart
  constructor
  · exact Int.floor_nonneg.mpr (div_nonneg h1 (by norm_num))
  · apply Int.floor_lt.mpr
    rw [div_lt_iff (by norm_num : (0 : ℚ) < 60)]
    push_cast
    linarith

lemma secondsPart_bounds (s : ℚ) (hs : 0 ≤ s) : 0 ≤ secondsPart s ∧ secondsPart s < 60 := by
  obtain ⟨h1, h2⟩ := jsMod_bounds s 60 hs (by norm_num)
  unfold secondsPart
  constructor
  · exact Int.floor_nonneg.mpr h1
  · apply Int.floor_lt.mpr
    push_cast
    linarith

lemma hoursPart_pos_iff (s : ℚ) (hs : 0 ≤ s) : 0 < hoursPart s ↔ 3600 ≤ s := by
  unfold hoursPart
  constructor
  · intro h
    have h1 : (1 : ℤ) ≤ ⌊s / 3600⌋ := h
    have h2 : ((1 : ℤ) : ℚ) ≤ s / 3600 := Int.le_floor.mp h1
    rw [le_div_iff (by norm_num : (0 : ℚ) < 3600)] at h2
    push_cast at h2
    linarith
  · intro h
    have h2 : ((1 : ℤ) : ℚ) ≤ s / 3600 := by
      rw [le_div_iff (by norm_num : (0 : ℚ) < 3600)]
      push_cast
      linarith
    exact Int.le_floor.mpr h2

/-- C9: for non-negative seconds the formatter yields `HH:MM:SS` exactly
when the value reaches one hour and `MM:SS` otherwise, the minute and
second fields always being two zero-padded digits (their values lie in
`[0, 60)`); `3661` formats as `"01:01:01"` and `65` as `"01:05"`. -/
theorem C9_format_timestamp :
    (∀ s : ℚ, 0 ≤ s →
      (0 ≤ minutesPart s ∧ minutesPart s < 60 ∧ 0 ≤ secondsPart s ∧ secondsPart s < 60) ∧
      (pad2 (minutesPart s)).length = 2 ∧
      (pad2 (secondsPart s)).length = 2 ∧
      (3600 ≤ s → formatTimestamp s =
        pad2 (hoursPart s) ++ ":" ++ pad2 (minutesPart s) ++ ":" ++ pad2 (secondsPart s)) ∧
      (s < 3600 → formatTimestamp s = pad2 (minutesPart s) ++ ":" ++ pad2 (secondsPart s))) ∧
    formatTimestamp 3661 = "01:01:01" ∧
    formatTimestamp 65 = "01:05" := by
  refine ⟨?_, ?_, ?_⟩
  case refine_2 =>
    have hh : hoursPart (3661 : ℚ) = 1 := by norm_num [hoursPart]
    have hm : minutesPart (3661 : ℚ) = 1 := by norm_num [minutesPart, jsMod, truncQ]
    have hsec : secondsPart (3661 : ℚ) = 1 := by norm_num [secondsPart, jsMod, truncQ]
    unfold formatTimestamp
    rw [hh, hm, hsec]
    decide
  case refine_3 =>
    have hh : hoursPart (65 : ℚ) = 0 := by norm_num [hoursPart]
    have hm : minutesPart (65 : ℚ) = 1 := by norm_num [minutesPart, jsMod, truncQ]
    have hsec : secondsPart (65 : ℚ) = 5 := by norm_num [secondsPart, jsMod, truncQ]
    unfold formatTimestamp
    rw [hh, hm, hsec]
    decide
  intro s hs
  obtain ⟨hm1, hm2⟩ := minutesPart_bounds s hs
  obtain ⟨hs1, hs2⟩ := secondsPart_bounds s hs
  refine ⟨⟨hm1, hm2, hs1, hs2⟩, pad2_length_two _ hm1 (by omega),
    pad2_length_two _ hs1 (by omega), ?_, ?_⟩
  · intro h
    unfold formatTimestamp
    rw [if_pos ((hoursPart_pos_iff s hs).mpr h)]
  · intro h
    unfold formatTimestamp
    rw [if_neg]
    intro hpos
    exact absurd ((hoursPart_pos_iff s hs).mp hpos) (by linarith)

theorem C9_format_timestamp_witness :
    (0 : ℚ) ≤ 65 ∧ (65 : ℚ) < 3600 ∧
    formatTimestamp 65 = pad2 (minutesPart 65) ++ ":" ++ pad2 (secondsPart 65) :=
  ⟨by norm_num, by norm_num,
   (C9_format_timestamp.1 65 (by norm_num)).2.2.2.2 (by norm_num)⟩

/-! ## C1 — chunk-planner windows -/

/-- Every chunk starts where the previous one ended, the first at `c0`. -/
def contiguousFrom : ℕ → List LoopChunk → Prop
  | _, [] => True
  | c0, ch :: rest => ch.startSample = c0 ∧ contiguousFrom ch.endSample rest

lemma splitLoopAux_of_le (spc sr fuel total cur idx : ℕ) (h : total ≤ cur) :
    splitLoopAux spc sr fuel total cur idx = [] := by
  cases fuel with
  | zero => rfl
  | succ fuel => simp [splitLoopAux, Nat.not_lt.mpr h]

lemma splitLoopAux_contiguous (spc sr : ℕ) (hspc : 0 < spc) :
    ∀ fuel total cur idx, total - cur ≤ fuel →
      contiguousFrom cur (splitLoopAux spc sr fuel total cur idx) := by
  intro fuel
  induction fuel with
  | zero =>
    intro total cur idx hfuel
    simp [splitLoopAux, contiguousFrom]
  | succ fuel ih =>
    intro total cur idx hfuel
    by_cases h : cur < total
    · simp only [splitLoopAux, if_pos h]
      exact ⟨rfl, ih total (cur + min spc (total - cur)) (idx + 1) (by omega)⟩
    · simp [splitLoopAux, h, contiguousFrom]

lemma splitLoopAux_mem (spc sr : ℕ) (hspc : 0 < spc) :
    ∀ fuel total cur idx, ∀ c ∈ splitLoopAux spc sr fuel total cur idx,
      cur ≤ c.startSample ∧ c.startSample < c.endSample ∧ c.endSample ≤ total ∧
      c.endSample = min (c.startSample + spc) total := by
  intro fuel
  induction fuel with
  | zero =>
    intro total cur idx c hc
    simp [splitLoopAux] at hc
  | succ fuel ih =>
    intro total cur idx c hc
    by_cases h : cur < total
    · simp only [splitLoopAux, if_pos h, List.mem_cons] at hc
      rcases hc with hc | hc
      · subst hc
        refine ⟨le_refl _, ?_, ?_, ?_⟩ <;> simp <;> omega
      · have h2 := ih total (cur + min spc (total - cur)) (idx + 1) c hc
        exact ⟨by omega, h2.2.1, h2.2.2.1, h2.2.2.2⟩
    · rw [splitLoopAux_of_le spc sr _ total cur idx (by omega)] at hc
      simp at hc

lemma splitLoopAux_dvd (spc sr : ℕ) (hspc : 0 < spc) :
    ∀ fuel total cur idx, spc ∣ cur →
      ∀ c ∈ splitLoopAux spc sr fuel total cur idx, spc ∣ c.startSample := by
  intro fuel
  induction fuel with
  | zero =>
    intro total cur idx hdvd c hc
    simp [splitLoopAux] at hc
  | succ fuel ih =>
    intro total cur idx hdvd c hc
    by_cases h : cur < total
    · simp only [splitLoopAux, if_pos h, List.mem_cons] at hc
      rcases hc with hc | hc
      · subst hc; exact hdvd
      · by_cases hm : spc ≤ total - cur
        · rw [min_eq_left hm] at hc
          exact ih total (cur + spc) (idx + 1) (Dvd.dvd.add hdvd (dvd_refl spc)) c hc
        · have hmin : min spc (total - cur) = total - cur := by omega
          rw [hmin] at hc
          have hcur : cur + (total - cur) = total := by omega
          rw [hcur, splitLoopAux_of_le spc sr _ total total (idx + 1) (le_refl total)] at hc
          simp at hc
    · rw [splitLoopAux_of_le spc sr _ total cur idx (by omega)] at hc
      simp at hc

lemma splitLoopAux_coverage (spc sr : ℕ) (hspc : 0 < spc) :
    ∀ fuel total cur idx, total - cur ≤ fuel →
      ∀ j, (cur ≤ j ∧ j < total) ↔
        ∃ c ∈ splitLoopAux spc sr fuel total cur idx, c.startSample ≤ j ∧ j < c.endSample := by
  intro fuel
  induction fuel with
  | zero =>
    intro total cur idx hfuel j
    constructor
    · intro hj; omega
    · intro hj; simp [splitLoopAux] at hj
  | succ fuel ih =>
    intro total cur idx hfuel j
    by_cases h : cur < total
    · simp only [splitLoopAux, if_pos h, List.mem_cons]
      constructor
      · rintro ⟨hj1, hj2⟩
        by_cases hjc : j < cur + min spc (total - cur)
        · exact ⟨_, Or.inl rfl, hj1, hjc⟩
        · obtain ⟨c, hc, hcov⟩ :=
            ((ih total (cur + min spc (total - cur)) (idx + 1) (by omega) j).mp
              ⟨by omega, hj2⟩)
          exact ⟨c, Or.inr hc, hcov⟩
      · rintro ⟨c, hc | hc, hcov1, hcov2⟩
        · subst hc
          simp only at hcov1 hcov2
          omega
        · have h2 := splitLoopAux_mem spc sr hspc fuel total
            (cur + min spc (total - cur)) (idx + 1) c hc
          omega
    · rw [splitLoopAux_of_le spc sr _ total cur idx (by omega)]
      constructor
      · intro hj; omega
      · intro hj; simp at hj

lemma contiguousFrom_mono :
    ∀ (ws : List LoopChunk) (c0 : ℕ), contiguousFrom c0 ws →
      (∀ c ∈ ws, c.startSample < c.endSample) → ∀ c ∈ ws, c0 ≤ c.startSample := by
  intro ws
  induction ws with
  | nil => intro c0 _ _ c hc; simp at hc
  | cons a tail ih =>
    intro c0 hcont hlt c hc
    obtain ⟨ha, htail⟩ := hcont
    rcases List.mem_cons.mp hc with hc | hc
    · subst hc; omega
    · have h1 := ih a.endSample htail (fun x hx => hlt x (List.mem_cons_of_mem a hx)) c hc
      have h2 := hlt a (List.mem_cons_self a tail)
      omega

lemma contiguous_pairwise :
    ∀ (ws : List LoopChunk) (c0 : ℕ), contiguousFrom c0 ws →
      (∀ c ∈ ws, c.startSample < c.endSample) →
      ws.Pairwise (fun a b => a.endSample ≤ b.startSample) := by
  intro ws
  induction ws with
  | nil => intro c0 _ _; exact List.Pairwise.nil
  | cons a tail ih =>
    intro c0 hcont hlt
    obtain ⟨ha, htail⟩ := hcont
    refine List.Pairwise.cons ?_ (ih a.endSample htail
      (fun x hx => hlt x (List.mem_cons_of_mem a hx)))
    intro b hb
    exact contiguousFrom_mono tail a.endSample htail
      (fun x hx => hlt x (List.mem_cons_of_mem a hx)) b hb

/-- C1 (amended): the code computes `samplesPerChunk` as the plain product
`chunkDurationSeconds * sampleRate` with no floor applied; for an integer
chunk duration (as in every call in the repository) this product is an
integer equal to its own floor, and then the planner windows are
contiguous, pairwise non-overlapping, cover exactly `[0, totalSamples)`,
start at integer multiples of `samplesPerChunk`, advance by exactly
`samplesPerChunk` except that the final window is clipped to end at
`totalSamples`. -/
theorem C1_planner_windows (d s total : ℕ) (hd : 0 < d) (hs : 0 < s)
    (hlt : d * s < total) :
    samplesPerChunk (d : ℚ) s = ((d * s : ℕ) : ℚ) ∧
    ((⌊samplesPerChunk (d : ℚ) s⌋ : ℤ) : ℚ) = samplesPerChunk (d : ℚ) s ∧
    contiguousFrom 0 (splitLoopAux (d * s) s total total 0 0) ∧
    (splitLoopAux (d * s) s total total 0 0).Pairwise
      (fun a b => a.endSample ≤ b.startSample) ∧
    (∀ j, j < total ↔ ∃ c ∈ splitLoopAux (d * s) s total total 0 0,
        c.startSample ≤ j ∧ j < c.endSample) ∧
    (∀ c ∈ splitLoopAux (d * s) s total total 0 0,
        c.endSample = min (c.startSample + d * s) total ∧ c.startSample < c.endSample) ∧
    (∀ c ∈ splitLoopAux (d * s) s total total 0 0, (d * s) ∣ c.startSample) ∧
    (∃ c ∈ splitLoopAux (d * s) s total total 0 0, c.endSample = total) := by
  have hspc : 0 < d * s := Nat.mul_pos hd hs
  have hcast : samplesPerChunk (d : ℚ) s = ((d * s : ℕ) : ℚ) := by
    unfold samplesPerChunk
    push_cast
    ring
  have hmem := splitLoopAux_mem (d * s) s hspc total total 0 0
  have hcont := splitLoopAux_contiguous (d * s) s hspc total total 0 0 (by omega)
  have hcov := splitLoopAux_coverage (d * s) s hspc total total 0 0 (by omega)
  refine ⟨hcast, ?_, hcont, ?_, ?_, ?_, ?_, ?_⟩
  · rw [hcast, Int.floor_natCast]
    norm_cast
  · exact contiguous_pairwise _ 0 hcont (fun c hc => (hmem c hc).2.1)
  · intro j
    rw [← hcov j]
    omega
  · exact fun c hc => ⟨(hmem c hc).2.2.2, (hmem c hc).2.1⟩
  · exact splitLoopAux_dvd (d * s) s hspc total total 0 0 (dvd_zero _)
  · obtain ⟨c, hc, hcov1, hcov2⟩ := (hcov (total - 1)).mp (by omega)
    exact ⟨c, hc, by have := (hmem c hc).2.2.1; omega⟩

theorem C1_planner_windows_witness :
    0 < 1 ∧ 0 < 2 ∧ 1 * 2 < 5 ∧
    contiguousFrom 0 (splitLoopAux (1 * 2) 2 5 5 0 0) ∧
    (∀ c ∈ splitLoopAux (1 * 2) 2 5 5 0 0, (1 * 2) ∣ c.startSample) ∧
    (∃ c ∈ splitLoopAux (1 * 2) 2 5 5 0 0, c.endSample = 5) :=
  ⟨by decide, by decide, by decide,
   (C1_planner_windows 1 2 5 (by decide) (by decide) (by decide)).2.2.1,
   (C1_planner_windows 1 2 5 (by decide) (by decide) (by decide)).2.2.2.2.2.2.1,
   (C1_planner_windows 1 2 5 (by decide) (by decide) (by decide)).2.2.2.2.2.2.2⟩

/-- C1 counterexample: the claim states
`samplesPerChunk = floor(chunkDurationSeconds × sampleRate)`, but line 40
performs a bare multiplication.  At `chunkDurationSeconds = 1/2`,
`sampleRate = 1` the code's `samplesPerChunk` is `1/2`, which differs from
its floor `0`. -/
theorem C1_planner_counterexample :
    samplesPerChunk (1 / 2 : ℚ) 1 ≠ ((⌊samplesPerChunk (1 / 2 : ℚ) 1⌋ : ℤ) : ℚ) := by
  norm_num [samplesPerChunk]

/-! ## Orchestrator run characterizations -/

/-- Whether an `Except` is a success. -/
def exceptOk {e a : Type} : Except e a → Bool
  | Except.ok _ => true
  | Except.error _ => false

/-- The `text` of a successful round-trip (`""` for a failed one). -/
def okText : Except String ProxyResponse → String
  | Except.ok r => r.text
  | Except.error _ => ""

/-- The raw segments of a successful round-trip (`result.segments || []`). -/
def okSegs : Except String ProxyResponse → List Segment
  | Except.ok r => r.segments.getD []
  | Except.error _ => []

/-- The chunk texts the loop would accumulate over these chunks, the first
having index `i`. -/
def textsAll (A : Type) (oracle : ℕ → Except String ProxyResponse) :
    List (AudioChunk A) → ℕ → List String
  | [], _ => []
  | _ :: cs, i => okText (oracle i) :: textsAll A oracle cs (i + 1)

/-- The reconciled segments the loop would accumulate over these chunks. -/
def adjustedSegsAll (A : Type) (oracle : ℕ → Except String ProxyResponse) :
    List (AudioChunk A) → ℕ → List Segment
  | [], _ => []
  | c :: cs, i =>
    adjustSegments c.startTime (okSegs (oracle i)) ++ adjustedSegsAll A oracle cs (i + 1)

/-- The per-chunk summaries the loop would accumulate over these chunks. -/
def chunkSummariesAll (A : Type) (oracle : ℕ → Except String ProxyResponse) :
    List (AudioChunk A) → ℕ → List ChunkSummary
  | [], _ => []
  | c :: cs, i =>
    { chunkIndex := i, startTime := c.startTime, endTime := c.endTime,
      duration := c.duration, text := okText (oracle i) } :: chunkSummariesAll A oracle cs (i + 1)

/-- The calls the loop makes over these chunks (index, uploaded payload). -/
def callsAll (A : Type) : List (AudioChunk A) → ℕ → List (ℕ × ChunkBlob A)
  | [], _ => []
  | c :: cs, i => (i, c.blob) :: callsAll A cs (i + 1)

/-- The events the loop emits over a run of successful chunks. -/
def eventsPrefixOk (A : Type) (n : ℕ) : List (AudioChunk A) → ℕ → List ProgressEvent
  | [], _ => []
  | _ :: cs, i => chunkProgressEv i n :: (singleOkEvents ++ eventsPrefixOk A n cs (i + 1))

lemma joinTexts_nil (tt : String) : joinTexts tt [] = tt := rfl

lemma joinTexts_cons (tt t : String) (ts : List String) :
    joinTexts tt (t :: ts) = joinTexts (joinText tt t) ts := rfl

/-- Characterization of the chunk loop when every remaining chunk
succeeds. -/
lemma transcribeChunksLoop_allOk (A : Type) (oracle : ℕ → Except String ProxyResponse)
    (n : ℕ) (lang : String) (cd : Option ℚ) :
    ∀ (rest : List (AudioChunk A)) (i : ℕ) (tt : String) (segs : List Segment)
      (trs : List ChunkSummary),
      (∀ j, j < rest.length → exceptOk (oracle (i + j)) = true) →
      transcribeChunksLoop A oracle n lang cd rest i tt segs trs =
        (successResult (joinTexts tt (textsAll A oracle rest i))
           (segs ++ adjustedSegsAll A oracle rest i)
           (trs ++ chunkSummariesAll A oracle rest i) lang cd,
         eventsPrefixOk A n rest i ++ [completedAllEv],
         callsAll A rest i) := by
  intro rest
  induction rest with
  | nil =>
    intro i tt segs trs _
    simp [transcribeChunksLoop, textsAll, adjustedSegsAll, chunkSummariesAll,
      eventsPrefixOk, callsAll, joinTexts_nil]
  | cons c cs ih =>
    intro i tt segs trs hall
    have h0 : exceptOk (oracle i) = true := by
      have := hall 0 (by simp)
      rwa [Nat.add_zero] at this
    obtain ⟨r, hr⟩ : ∃ r, oracle i = Except.ok r := by
      cases ho : oracle i with
      | ok r => exact ⟨r, rfl⟩
      | error msg => rw [ho] at h0; simp [exceptOk] at h0
    have hall2 : ∀ j, j < cs.length → exceptOk (oracle (i + 1 + j)) = true := by
      intro j hj
      have := hall (j + 1) (by simp; omega)
      rwa [show i + (j + 1) = i + 1 + j by omega] at this
    simp only [transcribeChunksLoop, hr]
    rw [ih (i + 1) (joinText tt r.text) _ _ hall2]
    simp [textsAll, adjustedSegsAll, chunkSummariesAll, eventsPrefixOk, callsAll,
      joinTexts_cons, hr, okText, okSegs, List.append_assoc]

/-- Characterization of the chunk loop when the `d`-th remaining chunk is
the first to fail. -/
lemma transcribeChunksLoop_failAt (A : Type) (oracle : ℕ → Except String ProxyResponse)
    (n : ℕ) (lang : String) (cd : Option ℚ) (msg : String) :
    ∀ (d : ℕ) (rest : List (AudioChunk A)) (i : ℕ) (tt : String) (segs : List Segment)
      (trs : List ChunkSummary),
      d < rest.length →
      (∀ j, j < d → exceptOk (oracle (i + j)) = true) →
      oracle (i + d) = Except.error msg →
      transcribeChunksLoop A oracle n lang cd rest i tt segs trs =
        (failureResult ("Failed to transcribe chunk " ++ toString (i + d + 1) ++ ": " ++ msg)
           (joinTexts tt (textsAll A oracle (rest.take d) i))
           (segs ++ adjustedSegsAll A oracle (rest.take d) i)
           (i + d) n,
         eventsPrefixOk A n (rest.take d) i ++
           (chunkProgressEv (i + d) n :: singleFailEvents msg),
         callsAll A (rest.take (d + 1)) i) := by
  intro d
  induction d with
  | zero =>
    intro rest i tt segs trs hlen hok herr
    cases rest with
    | nil => simp at hlen
    | cons c cs =>
      rw [Nat.add_zero] at herr
      simp only [transcribeChunksLoop, herr]
      simp [textsAll, adjustedSegsAll, eventsPrefixOk, callsAll, joinTexts_nil]
  | succ d ih =>
    intro rest i tt segs trs hlen hok herr
    cases rest with
    | nil => simp at hlen
    | cons c cs =>
      have h0 : exceptOk (oracle i) = true := by
        have := hok 0 (by omega)
        rwa [Nat.add_zero] at this
      obtain ⟨r, hr⟩ : ∃ r, oracle i = Except.ok r := by
        cases ho : oracle i with
        | ok r => exact ⟨r, rfl⟩
        | error m => rw [ho] at h0; simp [exceptOk] at h0
      have hok2 : ∀ j, j < d → exceptOk (oracle (i + 1 + j)) = true := by
        intro j hj
        have := hok (j + 1) (by omega)
        rwa [show i + (j + 1) = i + 1 + j by omega] at this
      have herr2 : oracle (i + 1 + d) = Except.error msg := by
        rwa [show i + 1 + d = i + (d + 1) by omega]
      simp only [transcribeChunksLoop, hr]
      rw [ih cs (i + 1) (joinText tt r.text) _ _ (by simp at hlen; omega) hok2 herr2]
      rw [show i + 1 + d = i + (d + 1) by omega]
      simp [List.take_succ_cons, textsAll, adjustedSegsAll, eventsPrefixOk, callsAll,
        joinTexts_cons, hr, okText, okSegs, List.append_assoc]

/-! ## C2 — partial failure -/

/-- Space-joining of a list of texts, as in the claim's reading: the texts
separated by single spaces. -/
def spaceJoin : List String → String
  | [] => ""
  | t :: ts => ts.foldl (fun a b => a ++ " " ++ b) t

lemma joinText_empty_left (t : String) : joinText "" t = t := by
  cases t with
  | mk data => rfl

lemma string_append_sep_ne (a b : String) : a ++ " " ++ b ≠ "" := by
  intro h
  have hlen := congrArg String.length h
  simp only [String.length_append] at hlen
  have hone : (" " : String).length = 1 := rfl
  have hz : ("" : String).length = 0 := rfl
  rw [hone, hz] at hlen
  omega

lemma joinTexts_of_ne (ts : List String) :
    ∀ acc : String, acc ≠ "" → joinTexts acc ts = ts.foldl (fun a b => a ++ " " ++ b) acc := by
  induction ts with
  | nil => intro acc _; rfl
  | cons t ts ih =>
    intro acc hacc
    rw [joinTexts_cons]
    have hjt : joinText acc t = acc ++ " " ++ t := by
      unfold joinText
      rw [if_neg hacc]
    rw [hjt] at *
    rw [ih (acc ++ " " ++ t) (string_append_sep_ne acc t)]
    rfl

lemma joinTexts_eq_spaceJoin (ts : List String) (h : ∀ t ∈ ts, t ≠ "") :
    joinTexts "" ts = spaceJoin ts := by
  cases ts with
  | nil => rfl
  | cons t ts =>
    rw [joinTexts_cons, joinText_empty_left]
    exact joinTexts_of_ne ts t (h t (List.mem_cons_self t ts))

lemma callsAll_map_fst (A : Type) :
    ∀ (l : List (AudioChunk A)) (i : ℕ), (callsAll A l i).map Prod.fst = List.range' i l.length := by
  intro l
  induction l with
  | nil => intro i; rfl
  | cons c cs ih =>
    intro i
    simp [callsAll, List.range'_succ, ih (i + 1)]

/-- C2: when chunk `f` (0-based) is the first whose transcription call
fails, the orchestrator returns the partial-failure record with
`completedChunks = f`, `totalChunks` the planned chunk count, the joined
texts and accumulated reconciled segments of chunks `0..f-1`, an error
message naming the failing chunk — and makes no call for any chunk after
`f`.  The joined text equals the space-join of the chunk texts whenever
none of them is empty (the source skips the separator while the
accumulated text is still empty), and in the chunk-2-of-n case the
partial text is exactly chunk 1's text. -/
theorem C2_partial_failure (A : Type) (file : AudioFile A)
    (oracle : ℕ → Except String ProxyResponse) (lang msg : String) (f : ℕ)
    (hneed : (checkIfNeedsChunking file.sizeBytes file.probedDuration 25 300).needsChunking = true)
    (hf : f < (plannedChunks A file).length)
    (hok : ∀ j, j < f → exceptOk (oracle j) = true)
    (herr : oracle f = Except.error msg) :
    (transcribeAudio A file oracle lang).1 =
      failureResult ("Failed to transcribe chunk " ++ toString (f + 1) ++ ": " ++ msg)
        (joinTexts "" (textsAll A oracle ((plannedChunks A file).take f) 0))
        (adjustedSegsAll A oracle ((plannedChunks A file).take f) 0) f
        (plannedChunks A file).length ∧
    ((transcribeAudio A file oracle lang).2.2).map Prod.fst = List.range (f + 1) ∧
    ((∀ t ∈ textsAll A oracle ((plannedChunks A file).take f) 0, t ≠ "") →
      joinTexts "" (textsAll A oracle ((plannedChunks A file).take f) 0) =
        spaceJoin (textsAll A oracle ((plannedChunks A file).take f) 0)) ∧
    (f = 1 →
      (transcribeAudio A file oracle lang).1.partialText = some (okText (oracle 0))) := by
  have hok0 : ∀ j, j < f → exceptOk (oracle (0 + j)) = true := by
    intro j hj
    rw [Nat.zero_add]
    exact hok j hj
  have herr0 : oracle (0 + f) = Except.error msg := by rwa [Nat.zero_add]
  have hloop := transcribeChunksLoop_failAt A oracle (plannedChunks A file).length lang
    (checkIfNeedsChunking file.sizeBytes file.probedDuration 25 300).duration msg f
    (plannedChunks A file) 0 "" [] [] hf hok0 herr0
  rw [Nat.zero_add] at hloop
  have hrun : transcribeAudio A file oracle lang =
      ((transcribeChunksLoop A oracle (plannedChunks A file).length lang
          (checkIfNeedsChunking file.sizeBytes file.probedDuration 25 300).duration
          (plannedChunks A file) 0 "" [] []).1,
       analyzingEv ::
         chunkingEv (checkIfNeedsChunking file.sizeBytes file.probedDuration 25 300).estimatedChunks ::
         startTranscribingEv (plannedChunks A file).length ::
         (transcribeChunksLoop A oracle (plannedChunks A file).length lang
            (checkIfNeedsChunking file.sizeBytes file.probedDuration 25 300).duration
            (plannedChunks A file) 0 "" [] []).2.1,
       (transcribeChunksLoop A oracle (plannedChunks A file).length lang
          (checkIfNeedsChunking file.sizeBytes file.probedDuration 25 300).duration
          (plannedChunks A file) 0 "" [] []).2.2) := by
    simp only [transcribeAudio, hneed, if_true]
  refine ⟨?_, ?_, ?_, ?_⟩
  · rw [hrun]
    simp only [hloop]
    simp
  · rw [hrun]
    simp only [hloop]
    rw [callsAll_map_fst]
    rw [List.length_take, List.range_eq_range']
    congr 1
    omega
  · exact fun h => joinTexts_eq_spaceJoin _ h
  · intro hf1
    subst hf1
    rw [hrun]
    simp only [hloop]
    have h0 : exceptOk (oracle 0) = true := hok 0 (by omega)
    obtain ⟨r, hr⟩ : ∃ r, oracle 0 = Except.ok r := by
      cases ho : oracle 0 with
      | ok r => exact ⟨r, rfl⟩
      | error m => rw [ho] at h0; simp [exceptOk] at h0
    obtain ⟨c, cs, hc⟩ : ∃ c cs, plannedChunks A file = c :: cs := by
      cases hp : plannedChunks A file with
      | nil => rw [hp] at hf; simp at hf
      | cons c cs => exact ⟨c, cs, rfl⟩
    rw [hc]
    simp [failureResult, textsAll, joinTexts_cons, joinTexts_nil, joinText_empty_left]

theorem C2_partial_failure_witness :
    (checkIfNeedsChunking 0 (Except.ok 301) 25 300).needsChunking = true ∧
    1 < (plannedChunks Unit
      { payload := (), sizeBytes := 0, probedDuration := Except.ok 301,
        decodedDuration := 301, totalSamples := 301, sampleRate := 1 }).length ∧
    (fun j => if j = 0
        then Except.ok { text := "part one", language := "en", duration := some 300,
                         segments := some [{ id := 0, start := 1, stop := 2, text := "x" }] }
        else Except.error "boom" : ℕ → Except String ProxyResponse) 1 =
      Except.error "boom" ∧
    (transcribeAudio Unit
      { payload := (), sizeBytes := 0, probedDuration := Except.ok 301,
        decodedDuration := 301, totalSamples := 301, sampleRate := 1 }
      (fun j => if j = 0
        then Except.ok { text := "part one", language := "en", duration := some 300,
                         segments := some [{ id := 0, start := 1, stop := 2, text := "x" }] }
        else Except.error "boom")
      "en").1.partialText =
      some (okText ((fun j => if j = 0
        then Except.ok { text := "part one", language := "en", duration := some 300,
                         segments := some [{ id := 0, start := 1, stop := 2, text := "x" }] }
        else Except.error "boom" : ℕ → Except String ProxyResponse) 0)) :=
  ⟨by with_unfolding_all decide, by with_unfolding_all decide, rfl,
   (C2_partial_failure Unit
      { payload := (), sizeBytes := 0, probedDuration := Except.ok 301,
        decodedDuration := 301, totalSamples := 301, sampleRate := 1 }
      (fun j => if j = 0
        then Except.ok { text := "part one", language := "en", duration := some 300,
                         segments := some [{ id := 0, start := 1, stop := 2, text := "x" }] }
        else Except.error "boom")
      "en" "boom" 1 (by with_unfolding_all decide) (by with_unfolding_all decide)
      (by decide) rfl).2.2.2 rfl⟩

/-! ## C6 — result record shapes -/

/-- Shape of the non-chunked success result (`transcribeSingleAudio`,
lines 62-68): `duration` present, but no `wasChunked`, `chunks` or
`totalDuration` field. -/
def singleSuccessShape (r : JsResult) : Prop :=
  r.success = true ∧ r.text ≠ none ∧ r.segments ≠ none ∧ r.language ≠ none ∧
  r.duration ≠ none ∧ r.wasChunked = none ∧ r.chunks = none ∧ r.totalDuration = none ∧
  r.error = none ∧ r.partialText = none ∧ r.completedChunks = none ∧ r.totalChunks = none

/-- Shape of the chunked success result (lines 173-181): `wasChunked: true`
and `totalDuration` present, but no `duration` field. -/
def chunkedSuccessShape (r : JsResult) : Prop :=
  r.success = true ∧ r.text ≠ none ∧ r.segments ≠ none ∧ r.language ≠ none ∧
  r.chunks ≠ none ∧ r.totalDuration ≠ none ∧ r.wasChunked = some true ∧ r.duration = none ∧
  r.error = none ∧ r.partialText = none ∧ r.completedChunks = none ∧ r.totalChunks = none

/-- Shape of the partial-failure result (lines 141-148). -/
def chunkFailureShape (r : JsResult) : Prop :=
  r.success = false ∧ r.error ≠ none ∧ r.partialText ≠ none ∧ r.segments ≠ none ∧
  r.completedChunks ≠ none ∧ r.totalChunks ≠ none ∧ r.text = none ∧ r.language = none ∧
  r.duration = none ∧ r.totalDuration = none ∧ r.wasChunked = none ∧ r.chunks = none

/-- Shape of the catch-all failure result (lines 72-75 / 185-189):
`{success: false, error}` only. -/
def singleFailureShape (r : JsResult) : Prop :=
  r.success = false ∧ r.error ≠ none ∧ r.partialText = none ∧ r.segments = none ∧
  r.completedChunks = none ∧ r.totalChunks = none ∧ r.text = none ∧ r.language = none ∧
  r.duration = none ∧ r.totalDuration = none ∧ r.wasChunked = none ∧ r.chunks = none

lemma transcribeChunksLoop_shape (A : Type) (oracle : ℕ → Except String ProxyResponse)
    (n : ℕ) (lang : String) (cd : Option ℚ) :
    ∀ (rest : List (AudioChunk A)) (i : ℕ) (tt : String) (segs : List Segment)
      (trs : List ChunkSummary),
      chunkedSuccessShape (transcribeChunksLoop A oracle n lang cd rest i tt segs trs).1 ∨
      chunkFailureShape (transcribeChunksLoop A oracle n lang cd rest i tt segs trs).1 := by
  intro rest
  induction rest with
  | nil =>
    intro i tt segs trs
    left
    simp [transcribeChunksLoop, successResult, chunkedSuccessShape]
  | cons c cs ih =>
    intro i tt segs trs
    cases ho : oracle i with
    | error msg =>
      right
      simp [transcribeChunksLoop, ho, failureResult, chunkFailureShape]
    | ok r =>
      simp only [transcribeChunksLoop, ho]
      exact ih (i + 1) _ _ _

/-- C6 (amended): every result of `transcribeAudio` has exactly one of
four shapes — non-chunked success (with `duration`, without `wasChunked`),
chunked success (with `wasChunked: true` and `totalDuration`, without
`duration`), partial failure, or catch-all failure — so success and
failure variants are never mixed; the non-chunked path yields only the
first or last shape, the chunked path only the middle two. -/
theorem C6_result_shapes (A : Type) (file : AudioFile A)
    (oracle : ℕ → Except String ProxyResponse) (lang : String) :
    (singleSuccessShape (transcribeAudio A file oracle lang).1 ∨
     chunkedSuccessShape (transcribeAudio A file oracle lang).1 ∨
     chunkFailureShape (transcribeAudio A file oracle lang).1 ∨
     singleFailureShape (transcribeAudio A file oracle lang).1) ∧
    ((checkIfNeedsChunking file.sizeBytes file.probedDuration 25 300).needsChunking = false →
      singleSuccessShape (transcribeAudio A file oracle lang).1 ∨
      singleFailureShape (transcribeAudio A file oracle lang).1) ∧
    ((checkIfNeedsChunking file.sizeBytes file.probedDuration 25 300).needsChunking = true →
      chunkedSuccessShape (transcribeAudio A file oracle lang).1 ∨
      chunkFailureShape (transcribeAudio A file oracle lang).1) := by
  have hsingle : (checkIfNeedsChunking file.sizeBytes file.probedDuration 25 300).needsChunking
      = false →
      singleSuccessShape (transcribeAudio A file oracle lang).1 ∨
      singleFailureShape (transcribeAudio A file oracle lang).1 := by
    intro hn
    cases ho : oracle 0 with
    | ok r =>
      left
      simp [transcribeAudio, hn, transcribeSingleAudio, ho, singleSuccessShape]
    | error msg =>
      right
      simp [transcribeAudio, hn, transcribeSingleAudio, ho, singleFailureShape]
  have hchunked : (checkIfNeedsChunking file.sizeBytes file.probedDuration 25 300).needsChunking
      = true →
      chunkedSuccessShape (transcribeAudio A file oracle lang).1 ∨
      chunkFailureShape (transcribeAudio A file oracle lang).1 := by
    intro hn
    have hrun : (transcribeAudio A file oracle lang).1 =
        (transcribeChunksLoop A oracle (plannedChunks A file).length lang
          (checkIfNeedsChunking file.sizeBytes file.probedDuration 25 300).duration
          (plannedChunks A file) 0 "" [] []).1 := by
      simp only [transcribeAudio, hn, if_true]
    rw [hrun]
    exact transcribeChunksLoop_shape A oracle _ lang _ (plannedChunks A file) 0 "" [] []
  refine ⟨?_, hsingle, hchunked⟩
  cases hn : (checkIfNeedsChunking file.sizeBytes file.probedDuration 25 300).needsChunking with
  | false =>
    rcases hsingle hn with h | h
    · exact Or.inl h
    · exact Or.inr (Or.inr (Or.inr h))
  | true =>
    rcases hchunked hn with h | h
    · exact Or.inr (Or.inl h)
    · exact Or.inr (Or.inr (Or.inl h))

/-- C6 counterexample: the claim says every successful result carries a
`wasChunked` boolean flag, but a non-chunked success (small file, probe
ok, one successful call) returns `transcribeSingleAudio`'s record, which
has no `wasChunked` field (and no `totalDuration`/`chunks` either). -/
theorem C6_counterexample :
    ((transcribeAudio Unit
        { payload := (), sizeBytes := 0, probedDuration := Except.ok 10,
          decodedDuration := 10, totalSamples := 10, sampleRate := 1 }
        (fun _ => Except.ok { text := "hello", language := "en", duration := some 5,
                              segments := some [] })
        "en").1).success = true ∧
    ((transcribeAudio Unit
        { payload := (), sizeBytes := 0, probedDuration := Except.ok 10,
          decodedDuration := 10, totalSamples := 10, sampleRate := 1 }
        (fun _ => Except.ok { text := "hello", language := "en", duration := some 5,
                              segments := some [] })
        "en").1).wasChunked = none := by
  constructor <;> with_unfolding_all decide

theorem C6_result_shapes_witness :
    (checkIfNeedsChunking 0 (Except.ok 10) 25 300).needsChunking = false ∧
    (singleSuccessShape ((transcribeAudio Unit
        { payload := (), sizeBytes := 0, probedDuration := Except.ok 10,
          decodedDuration := 10, totalSamples := 10, sampleRate := 1 }
        (fun _ => Except.ok { text := "hello", language := "en", duration := some 5,
                              segments := some [] })
        "en").1) ∨
     singleFailureShape ((transcribeAudio Unit
        { payload := (), sizeBytes := 0, probedDuration := Except.ok 10,
          decodedDuration := 10, totalSamples := 10, sampleRate := 1 }
        (fun _ => Except.ok { text := "hello", language := "en", duration := some 5,
                              segments := some [] })
        "en").1)) :=
  ⟨by with_unfolding_all decide,
   (C6_result_shapes Unit
      { payload := (), sizeBytes := 0, probedDuration := Except.ok 10,
        decodedDuration := 10, totalSamples := 10, sampleRate := 1 }
      (fun _ => Except.ok { text := "hello", language := "en", duration := some 5,
                            segments := some [] })
      "en").2.1 (by with_unfolding_all decide)⟩

/-! ## C7 — progress notifications -/

lemma eventsPrefixOk_filter (A : Type) (n : ℕ) :
    ∀ (rest : List (AudioChunk A)) (i : ℕ),
      (eventsPrefixOk A n rest i).filter (fun e => e.currentChunk.isSome) =
        (List.range' i rest.length).map (fun k => chunkProgressEv k n) := by
  intro rest
  induction rest with
  | nil => intro i; rfl
  | cons c cs ih =>
    intro i
    simp only [eventsPrefixOk, List.length_cons, List.range'_succ, List.map_cons]
    rw [List.filter_cons_of_pos (by simp [chunkProgressEv]), List.filter_append]
    rw [show (singleOkEvents.filter (fun e => e.currentChunk.isSome)) = [] from rfl]
    rw [List.nil_append, ih (i + 1)]

/-- C7 (amended): in a chunked run in which every chunk succeeds, the
notifications that carry a chunk number are exactly, in order, one per
chunk `k` (0-based) of `n`, emitted before that chunk is transcribed,
with `currentChunk = k + 1`, `totalChunks = n`, and
`progress = (k / n) * 100` — i.e. the percentage of chunks completed when
it is emitted, not the fraction `(k+1)/n` after the chunk completes. -/
theorem C7_progress_events (A : Type) (file : AudioFile A)
    (oracle : ℕ → Except String ProxyResponse) (lang : String)
    (hneed : (checkIfNeedsChunking file.sizeBytes file.probedDuration 25 300).needsChunking = true)
    (hok : ∀ j, j < (plannedChunks A file).length → exceptOk (oracle j) = true) :
    (transcribeAudio A file oracle lang).2.1.filter (fun e => e.currentChunk.isSome) =
      (List.range (plannedChunks A file).length).map
        (fun k => chunkProgressEv k (plannedChunks A file).length) ∧
    (∀ k n : ℕ, (chunkProgressEv k n).currentChunk = some (k + 1) ∧
      (chunkProgressEv k n).totalChunks = some n ∧
      (chunkProgressEv k n).progress = some (((k : ℚ) / (n : ℚ)) * 100)) := by
  have hok0 : ∀ j, j < (plannedChunks A file).length → exceptOk (oracle (0 + j)) = true := by
    intro j hj
    rw [Nat.zero_add]
    exact hok j hj
  have hloop := transcribeChunksLoop_allOk A oracle (plannedChunks A file).length lang
    (checkIfNeedsChunking file.sizeBytes file.probedDuration 25 300).duration
    (plannedChunks A file) 0 "" [] [] hok0
  have hrun : (transcribeAudio A file oracle lang).2.1 =
      analyzingEv ::
        chunkingEv (checkIfNeedsChunking file.sizeBytes file.probedDuration 25 300).estimatedChunks ::
        startTranscribingEv (plannedChunks A file).length ::
        (transcribeChunksLoop A oracle (plannedChunks A file).length lang
          (checkIfNeedsChunking file.sizeBytes file.probedDuration 25 300).duration
          (plannedChunks A file) 0 "" [] []).2.1 := by
    simp only [transcribeAudio, hneed, if_true]
  refine ⟨?_, fun k n => ⟨rfl, rfl, rfl⟩⟩
  rw [hrun]
  simp only [hloop]
  rw [List.filter_cons_of_neg (by simp [analyzingEv]),
    List.filter_cons_of_neg (by simp [chunkingEv]),
    List.filter_cons_of_neg (by simp [startTranscribingEv]),
    List.filter_append, eventsPrefixOk_filter,
    show (([completedAllEv] : List ProgressEvent).filter
      (fun e => e.currentChunk.isSome)) = [] from rfl,
    List.append_nil, List.range_eq_range']

/-- C7 counterexample: in a successful two-chunk run, the notification
carrying `currentChunk = 1` has `progress = 0` (the percentage completed
before the chunk runs), not the claim's `completedChunks / totalChunks`
for the completed chunk — neither `1/2` nor `50`. -/
theorem C7_counterexample :
    ((transcribeAudio Unit
        { payload := (), sizeBytes := 0, probedDuration := Except.ok 400,
          decodedDuration := 400, totalSamples := 400, sampleRate := 1 }
        (fun _ => Except.ok { text := "hi", language := "en", duration := none,
                              segments := none })
        "en").2.1.filter (fun e => e.currentChunk == some 1)) = [chunkProgressEv 0 2] ∧
    (chunkProgressEv 0 2).progress = some 0 ∧
    ¬ (chunkProgressEv 0 2).progress = some ((1 : ℚ) / 2) ∧
    ¬ (chunkProgressEv 0 2).progress = some (((1 : ℚ) / 2) * 100) := by
  refine ⟨?_, ?_, ?_, ?_⟩ <;> with_unfolding_all decide

theorem C7_progress_events_witness :
    (checkIfNeedsChunking 0 (Except.ok 400) 25 300).needsChunking = true ∧
    ((transcribeAudio Unit
        { payload := (), sizeBytes := 0, probedDuration := Except.ok 400,
          decodedDuration := 400, totalSamples := 400, sampleRate := 1 }
        (fun _ => Except.ok { text := "hi", language := "en", duration := none,
                              segments := none })
        "en").2.1.filter (fun e => e.currentChunk.isSome) =
      (List.range (plannedChunks Unit
        { payload := (), sizeBytes := 0, probedDuration := Except.ok 400,
          decodedDuration := 400, totalSamples := 400, sampleRate := 1 }).length).map
        (fun k => chunkProgressEv k (plannedChunks Unit
          { payload := (), sizeBytes := 0, probedDuration := Except.ok 400,
            decodedDuration := 400, totalSamples := 400, sampleRate := 1 }).length)) :=
  ⟨by with_unfolding_all decide,
   (C7_progress_events Unit
      { payload := (), sizeBytes := 0, probedDuration := Except.ok 400,
        decodedDuration := 400, totalSamples := 400, sampleRate := 1 }
      (fun _ => Except.ok { text := "hi", language := "en", duration := none,
                            segments := none })
      "en" (by with_unfolding_all decide) (by with_unfolding_all decide)).1⟩

/-! ## C10 — oversized but short file -/

/-- C10: when the decoded duration fits within one chunk duration but the
size limit forces chunking, the splitter's early return yields exactly one
chunk whose payload is the original un-re-encoded file, with `index 0`,
`startTime 0`, `endTime = duration` (and no `duration` field); the
orchestrator therefore uploads the oversized original file whole in a
single call, yet reports a `wasChunked: true` success with a one-element
chunk list — size-triggered chunking does not shrink the uploaded
payload. -/
theorem C10_single_chunk_passthrough (A : Type) (file : AudioFile A)
    (oracle : ℕ → Except String ProxyResponse) (lang : String) (r : ProxyResponse)
    (hsize : 25 < (file.sizeBytes : ℚ) / (1024 * 1024))
    (hdur : file.decodedDuration ≤ (CHUNK_DURATION_SECONDS : ℚ))
    (hok : oracle 0 = Except.ok r) :
    plannedChunks A file =
      [{ blob := ChunkBlob.original file.payload, startTime := 0,
         endTime := file.decodedDuration, index := 0, duration := none }] ∧
    (transcribeAudio A file oracle lang).2.2 = [(0, ChunkBlob.original file.payload)] ∧
    (transcribeAudio A file oracle lang).1.success = true ∧
    (transcribeAudio A file oracle lang).1.wasChunked = some true ∧
    (transcribeAudio A file oracle lang).1.chunks =
      some [{ chunkIndex := 0, startTime := 0, endTime := file.decodedDuration,
              duration := none, text := r.text }] ∧
    (transcribeAudio A file oracle lang).1.text = some r.text ∧
    (transcribeAudio A file oracle lang).1.segments = some (r.segments.getD []) := by
  have hneed : (checkIfNeedsChunking file.sizeBytes file.probedDuration 25 300).needsChunking
      = true := by
    cases hp : file.probedDuration with
    | ok d => simp [checkIfNeedsChunking, hsize]
    | error u => simp [checkIfNeedsChunking, hsize]
  have hchunks : plannedChunks A file =
      [{ blob := ChunkBlob.original file.payload, startTime := 0,
         endTime := file.decodedDuration, index := 0, duration := none }] := by
    unfold plannedChunks splitAudioIntoChunks
    rw [if_pos hdur]
  have hadj : adjustSegments 0 (r.segments.getD []) = r.segments.getD [] := by
    simp [adjustSegments]
  have hrun : transcribeAudio A file oracle lang =
      ((transcribeChunksLoop A oracle (plannedChunks A file).length lang
          (checkIfNeedsChunking file.sizeBytes file.probedDuration 25 300).duration
          (plannedChunks A file) 0 "" [] []).1,
       analyzingEv ::
         chunkingEv (checkIfNeedsChunking file.sizeBytes file.probedDuration 25 300).estimatedChunks ::
         startTranscribingEv (plannedChunks A file).length ::
         (transcribeChunksLoop A oracle (plannedChunks A file).length lang
            (checkIfNeedsChunking file.sizeBytes file.probedDuration 25 300).duration
            (plannedChunks A file) 0 "" [] []).2.1,
       (transcribeChunksLoop A oracle (plannedChunks A file).length lang
          (checkIfNeedsChunking file.sizeBytes file.probedDuration 25 300).duration
          (plannedChunks A file) 0 "" [] []).2.2) := by
    simp only [transcribeAudio, hneed, if_true]
  have hloop : transcribeChunksLoop A oracle (plannedChunks A file).length lang
      (checkIfNeedsChunking file.sizeBytes file.probedDuration 25 300).duration
      (plannedChunks A file) 0 "" [] [] =
      (successResult r.text (r.segments.getD [])
         [{ chunkIndex := 0, startTime := 0, endTime := file.decodedDuration,
            duration := none, text := r.text }] lang
         (checkIfNeedsChunking file.sizeBytes file.probedDuration 25 300).duration,
       chunkProgressEv 0 (plannedChunks A file).length :: (singleOkEvents ++ [completedAllEv]),
       [(0, ChunkBlob.original file.payload)]) := by
    have hlen : (plannedChunks A file).length = 1 := by rw [hchunks]; rfl
    rw [hlen, hchunks]
    simp only [transcribeChunksLoop, hok, hadj]
    rw [joinText_empty_left]
    simp [transcribeChunksLoop]
  refine ⟨hchunks, ?_, ?_, ?_, ?_, ?_, ?_⟩ <;>
    rw [hrun] <;> simp only [hloop] <;> simp [successResult]

theorem C10_single_chunk_passthrough_witness :
    25 < ((27262976 : ℕ) : ℚ) / (1024 * 1024) ∧
    (200 : ℚ) ≤ (CHUNK_DURATION_SECONDS : ℚ) ∧
    plannedChunks String
      { payload := "big.mp3", sizeBytes := 27262976, probedDuration := Except.ok 200,
        decodedDuration := 200, totalSamples := 200, sampleRate := 1 } =
      [{ blob := ChunkBlob.original "big.mp3", startTime := 0, endTime := 200,
         index := 0, duration := none }] ∧
    (transcribeAudio String
      { payload := "big.mp3", sizeBytes := 27262976, probedDuration := Except.ok 200,
        decodedDuration := 200, totalSamples := 200, sampleRate := 1 }
      (fun _ => Except.ok { text := "whole", language := "en", duration := some 200,
                            segments := some [] })
      "en").2.2 = [(0, ChunkBlob.original "big.mp3")] :=
  ⟨by norm_num, by norm_num [CHUNK_DURATION_SECONDS],
   (C10_single_chunk_passthrough String
      { payload := "big.mp3", sizeBytes := 27262976, probedDuration := Except.ok 200,
        decodedDuration := 200, totalSamples := 200, sampleRate := 1 }
      (fun _ => Except.ok { text := "whole", language := "en", duration := some 200,
                            segments := some [] })
      "en" { text := "whole", language := "en", duration := some 200, segments := some [] }
      (by norm_num) (by norm_num [CHUNK_DURATION_SECONDS]) rfl).1,
   (C10_single_chunk_passthrough String
      { payload := "big.mp3", sizeBytes := 27262976, probedDuration := Except.ok 200,
        decodedDuration := 200, totalSamples := 200, sampleRate := 1 }
      (fun _ => Except.ok { text := "whole", language := "en", duration := some 200,
                            segments := some [] })
      "en" { text := "whole", language := "en", duration := some 200, segments := some [] }
      (by norm_num) (by norm_num [CHUNK_DURATION_SECONDS]) rfl).2.1⟩
